import Mathlib

/-!
Verification development for the document-access core of the `tiddy`
repository (`src/backend/api/tiddler-store.ts`): the `GlobalTiddlerStore`
facade that resolves recipes into bag lists, checks per-bag policy, and
performs compare-and-swap reads/writes/removals.

External collaborators (persistence engine, policy checker, recipe
resolver, document factory, transaction runner) are not part of the
repository source; they are modelled from the contracts the spec states
for them (§6), as structures of pure functions.  The facade methods
themselves are translated statement-by-statement from the TypeScript
source.  The transaction runner runs a callback once against one
persistence handle and propagates failures unchanged, so it is embedded
as direct state passing: every stateful operation takes the persistence
state and returns it alongside the `Except` result.
-/

/-- The acting user; opaque to the core (only passed through). -/
abbrev User := String

/-- A tiddler value: a mapping of named top-level fields to (opaque) values.
JavaScript object field access "first binding wins" is modelled by
`List.find?` over an association list. -/
abbrev Tiddler := List (String × String)

/-- Partial field set of an update, or creation fields: same shape as a
tiddler value. -/
abbrev TiddlerData := List (String × String)

/-- `TiddlerNamespace` from `shared/model/tiddler`: a wiki-scoped bag name.
The TS field `wiki` keeps its name; `bag` keeps its name. -/
structure TiddlerNamespace where
  wiki : String
  bag : String
deriving DecidableEq, Repr

/-- `NamespacedRecipe` from `shared/model/recipe`: a wiki-scoped recipe name. -/
structure NamespacedRecipe where
  wiki : String
  recipe : String
deriving DecidableEq, Repr

/-- A fully qualified tiddler record `{namespace, title, value, revision}` as
returned by persistence reads and writes.  The TS field `namespace` is a
reserved word in Lean and is called `ns` here. -/
structure QualifiedRecord where
  ns : TiddlerNamespace
  title : String
  value : Tiddler
  revision : String
deriving DecidableEq, Repr

/-- HTTP status for BadRequest errors (`errors.ts`). -/
def HTTP_BAD_REQUEST : Nat := 400

/-- HTTP status for Forbidden errors (`errors.ts`). -/
def HTTP_FORBIDDEN : Nat := 403

/-- HTTP status for NotFound errors (`errors.ts`). -/
def HTTP_NOT_FOUND : Nat := 404

/-- HTTP status for Conflict errors (spec §6 boundary error taxonomy). -/
def HTTP_CONFLICT : Nat := 409

/-- Errors thrown by the store: `http` is the TS `HTTPError(message, status)`;
`fatal` is a plain `new Error(message)` (or a JS runtime TypeError), carrying
no HTTP status. -/
inductive StoreError where
  | http (message : String) (status : Nat)
  | fatal (message : String)
deriving DecidableEq, Repr

/-- One entry of a policy-checker result list: `{bag, allowed, reason?}`,
parallel to the supplied bag list (spec §6). -/
structure AccessResult where
  bag : String
  allowed : Bool
  reason : Option String
deriving DecidableEq, Repr

/-- JavaScript truthiness of an optional string: `undefined` and the empty
string are falsy.  Used where the source filters reasons with
`filter(x => x)` / `filter(p => p.reason)`. -/
def truthyStr : Option String → Bool
  | none => false
  | some r => r ≠ ""

/-- The `create` payload of a `TiddlerUpdateOrCreate`: a declared type plus
creation fields.  The source passes the whole payload to the factory as its
last argument (`updateOrCreate.create`). -/
structure TiddlerCreation where
  type : String
  fields : TiddlerData
deriving DecidableEq, Repr

/-- `TiddlerUpdateOrCreate` from `shared/model/store`: a tagged variant,
either `update` (partial field set plus optional expected revision) or
`create` (a creation payload).  The TS discriminator is presence of the
`update` key. -/
inductive TiddlerUpdateOrCreate where
  | update (upd : TiddlerData) (expectedRevision : Option String)
  | create (creation : TiddlerCreation)
deriving DecidableEq, Repr

/-- Modelled from the spec: `getTiddlerData` of `shared/model/store` is not
under `src/`; the spec says the candidate content passed to the policy
checker is "the update fields or, for create intents, the creation fields". -/
def getTiddlerData : TiddlerUpdateOrCreate → TiddlerData
  | .update upd _ => upd
  | .create c => c.fields

/-- Modelled from the spec: `getExpectedRevision` of `shared/model/store` is
not under `src/`; the spec says the expected revision is "present for
`update`, absent/unconstrained for `create`". -/
def getExpectedRevision : TiddlerUpdateOrCreate → Option String
  | .update _ rev => rev
  | .create _ => none

/-- The updater contract (spec §4.1): given the document's current value or
its absence, produce the next value or absence, or fail. -/
abbrev Updater := Option Tiddler → Except StoreError (Option Tiddler)

/-- Modelled from the spec: the Persistence collaborator (`TiddlerPersistence`
of `backend/common/persistence/interfaces`, not under `src/`).  A handle over
state type `σ`: `readCollections` returns the records of the supplied
namespaces in the supplied order (§6 readMany ordering contract);
`updateDoc` is compare-and-swap, returning the new record when the updater
yields a value and nothing when it yields absence, failing Conflict on an
expected-revision mismatch; `currentValue` is the current value `updateDoc`
presents to its updater (used to render the remove closure's observation). -/
structure TiddlerPersistence (σ : Type) where
  readCollections : σ → List TiddlerNamespace → List QualifiedRecord
  updateDoc : σ → TiddlerNamespace → String → Updater → Option String →
    Except StoreError (Option QualifiedRecord) × σ
  currentValue : σ → TiddlerNamespace → String → Option Tiddler

/-- Modelled from the spec: the PolicyChecker collaborator yields ordered
allow/deny lists parallel to the supplied bag list (§6).  The persistence
handle the TS interface threads through is omitted: the modelled checker is
a pure function of the remaining arguments. -/
structure PolicyChecker where
  verifyReadAccess : User → String → List String → List AccessResult
  getWriteableBag : User → String → List String → String → TiddlerData → List AccessResult
  verifyRemoveAccess : User → String → List String → List AccessResult

/-- Modelled from the spec: the RecipeResolver collaborator expands a recipe
into an ordered bag list for a given access mode, or an absent sentinel
meaning "recipe not found" (§6).  The persistence handle is omitted as for
the policy checker; the mode is the string `"read"` or `"write"` as in the
source call sites. -/
structure RecipeResolver where
  getRecipeBags : User → String → NamespacedRecipe → Option (List String)

/-- Modelled from the spec: the TiddlerFactory collaborator builds a new
document value from `(user, title, declared type, creation fields)` (§6).
The source passes the whole creation payload as the fields argument. -/
structure TiddlerFactory where
  createTiddler : User → String → String → TiddlerCreation → Tiddler

/-- The injected collaborators of `GlobalTiddlerStore` (constructor, lines
115–127 of the source).  The transaction runner is embedded as direct state
passing and `getTimestamp` is unused by the embedded methods. -/
structure GlobalTiddlerStore where
  policyChecker : PolicyChecker
  recipeResolver : RecipeResolver
  tiddlerFactory : TiddlerFactory

/-- `GlobalTiddlerStore.deduplicate` (source lines 40–67), translated
faithfully: the loop skips a tiddler whose title is in `encounteredTitles`
and pushes it otherwise — and the source never adds any title to
`encounteredTitles`, so the set stays as initialised (empty). -/
def deduplicate (tiddlers : List QualifiedRecord) : List QualifiedRecord :=
  (tiddlers.foldl
    (fun acc tiddler =>
      let encounteredTitles := acc.1
      let deduplicated := acc.2
      if encounteredTitles.contains tiddler.title then
        (encounteredTitles, deduplicated)
      else
        (encounteredTitles, deduplicated ++ [tiddler]))
    (([] : List String), ([] : List QualifiedRecord))).2

/-- `GlobalTiddlerStore.getFirst` (source lines 69–86):
`tiddlers.find(t => t.title === title)`. -/
def getFirst (tiddlers : List QualifiedRecord) (title : String) :
    Option QualifiedRecord :=
  tiddlers.find? (fun t => t.title == title)

/-- The field-level semantics of `Object.assign({}, base, upd)`: the result
binds every field of `upd` to `upd`'s value and every other field to `base`'s
value.  Rendered on association lists by dropping from `base` the fields
`upd` rebinds and appending `upd`. -/
def objectAssign (base upd : Tiddler) : Tiddler :=
  base.filter (fun p => (upd.find? (fun q => q.1 == p.1)).isNone) ++ upd

/-- Field lookup on a tiddler value (JS object property read). -/
def getField (t : Tiddler) (k : String) : Option String :=
  (t.find? (fun p => p.1 == k)).map (fun p => p.2)

/-- `GlobalTiddlerStore.getUpdater` (source lines 88–113): for an `update`
intent it requires an existing tiddler (else BadRequest) and shallow-merges
with `Object.assign({}, existingTiddler, updateOrCreate.update)`; for a
`create` intent it always calls the factory.  The TS closure returns a
`Tiddler` (never absence). -/
def getUpdater (tiddlerFactory : TiddlerFactory) (user : User) (title : String)
    (updateOrCreate : TiddlerUpdateOrCreate) :
    Option Tiddler → Except StoreError Tiddler :=
  fun existingTiddler =>
    match updateOrCreate with
    | .update upd _ =>
      match existingTiddler with
      | none =>
        .error (.http
          ("Tiddler " ++ title ++ " received update, but no such tiddler exists in bag")
          HTTP_BAD_REQUEST)
      | some existing => .ok (objectAssign existing upd)
    | .create c => .ok (tiddlerFactory.createTiddler user title c.type c)

/-- An updater-typed view of the write closure: the TS closure returns a
`Tiddler` and is used where persistence expects `Tiddler | undefined`
(structural subtyping); here the coercion is explicit. -/
def asUpdater (f : Option Tiddler → Except StoreError Tiddler) : Updater :=
  fun cur => (f cur).map some

/-- A read result that is a single record or an array of records
(`MaybeArray<NamespacedTiddler>` in the source). -/
inductive MaybeArray (α : Type) where
  | single (a : α)
  | array (as : List α)
deriving DecidableEq, Repr

/-- `GlobalTiddlerStore.readFromRecipe` (source lines 167–224).  `!bags` in
JavaScript is true only for the absent sentinel (an empty array is truthy),
so only `none` takes the recipe-not-found branch.  NOTE: the denial branch
for unreadable bags throws with status `HTTP_NOT_FOUND` in the source
(line 204), not `HTTP_FORBIDDEN`. -/
def readFromRecipe {σ : Type} (store : GlobalTiddlerStore)
    (P : TiddlerPersistence σ) (user : User)
    (namespacedRecipe : NamespacedRecipe) (title : Option String) (s : σ) :
    Except StoreError (MaybeArray QualifiedRecord) :=
  match store.recipeResolver.getRecipeBags user "read" namespacedRecipe with
  | none =>
    .error (.http
      ("Recipe " ++ namespacedRecipe.recipe ++ " not found in wiki " ++
        namespacedRecipe.wiki)
      HTTP_NOT_FOUND)
  | some bags =>
    let readPermissions :=
      store.policyChecker.verifyReadAccess user namespacedRecipe.wiki bags
    if readPermissions.all (fun p => p.allowed) then
      let tiddlers := P.readCollections s
        (bags.map (fun bag => { wiki := namespacedRecipe.wiki, bag := bag }))
      match title with
      | some t =>
        match getFirst tiddlers t with
        | some tiddler => .ok (.single tiddler)
        | none =>
          .error (.http
            ("Tiddler " ++ t ++ " not found in wiki " ++ namespacedRecipe.wiki ++
              " recipe " ++ namespacedRecipe.recipe)
            HTTP_NOT_FOUND)
      | none => .ok (.array (deduplicate tiddlers))
    else
      .error (.http
        ("At least one bag referenced by recipe " ++ namespacedRecipe.recipe ++
          " in wiki " ++ namespacedRecipe.wiki ++ " is not readable. Errors: " ++
          String.intercalate ", "
            (((readPermissions.map (fun p => p.reason)).filter truthyStr).filterMap
              (fun x => x)))
        HTTP_NOT_FOUND)

/-- `GlobalTiddlerStore.writeToBag` (source lines 226–266): single-bag write.
`writePermission[0]` on an empty permission list is a JS TypeError, modelled
as a fatal error.  After the transaction, a falsy result is rejected with a
plain `Error` ("Result of write transaction should not be null"). -/
def writeToBag {σ : Type} (store : GlobalTiddlerStore)
    (P : TiddlerPersistence σ) (user : User) (ns : TiddlerNamespace)
    (title : String) (updateOrCreate : TiddlerUpdateOrCreate) (s : σ) :
    Except StoreError QualifiedRecord × σ :=
  let txResult : Except StoreError (Option QualifiedRecord) × σ :=
    match (store.policyChecker.getWriteableBag user ns.wiki [ns.bag] title
        (getTiddlerData updateOrCreate)).head? with
    | none => (.error (.fatal "TypeError"), s)
    | some writePermission0 =>
      if writePermission0.allowed then
        P.updateDoc s ns title
          (asUpdater (getUpdater store.tiddlerFactory user title updateOrCreate))
          (getExpectedRevision updateOrCreate)
      else
        (.error (.http ("Tiddler write denied " ++ writePermission0.reason.getD "")
          HTTP_FORBIDDEN), s)
  match txResult with
  | (.error e, s1) => (.error e, s1)
  | (.ok none, s1) =>
    (.error (.fatal "Result of write transaction should not be null"), s1)
  | (.ok (some r), s1) => (.ok r, s1)

/-- `GlobalTiddlerStore.writeToRecipe` (source lines 268–324): recipe write,
selecting the first bag whose write permission is allowed.  The source ends
with `return txResult!` — a compile-time non-null assertion with no runtime
check — so the transaction's optional result is returned as-is. -/
def writeToRecipe {σ : Type} (store : GlobalTiddlerStore)
    (P : TiddlerPersistence σ) (user : User)
    (namespacedRecipe : NamespacedRecipe) (title : String)
    (updateOrCreate : TiddlerUpdateOrCreate) (s : σ) :
    Except StoreError (Option QualifiedRecord) × σ :=
  match store.recipeResolver.getRecipeBags user "write" namespacedRecipe with
  | none =>
    (.error (.http
      ("Recipe " ++ namespacedRecipe.recipe ++ " not found in wiki " ++
        namespacedRecipe.wiki)
      HTTP_NOT_FOUND), s)
  | some bags =>
    let permissions := store.policyChecker.getWriteableBag user
      namespacedRecipe.wiki bags title (getTiddlerData updateOrCreate)
    match permissions.find? (fun p => p.allowed) with
    | none =>
      (.error (.http
        ("No bags in wiki " ++ namespacedRecipe.wiki ++ " recipe " ++
          namespacedRecipe.recipe ++
          " found which can be written to. Errors: " ++
          String.intercalate ", "
            ((permissions.filter (fun p => truthyStr p.reason)).filterMap
              (fun p => p.reason)))
        HTTP_FORBIDDEN), s)
    | some bagToWrite =>
      P.updateDoc s { wiki := namespacedRecipe.wiki, bag := bagToWrite.bag } title
        (asUpdater (getUpdater store.tiddlerFactory user title updateOrCreate))
        (getExpectedRevision updateOrCreate)

/-- `GlobalTiddlerStore.removeFromBag` (source lines 326–363): the updater
closure records whether a current value existed (`tiddlerExisted`) and
unconditionally yields absence; the call returns the recorded boolean.  The
closure's observation is the current value persistence hands to the updater,
rendered here through `P.currentValue`. -/
def removeFromBag {σ : Type} (store : GlobalTiddlerStore)
    (P : TiddlerPersistence σ) (user : User) (ns : TiddlerNamespace)
    (title : String) (expectedRevision : String) (s : σ) :
    Except StoreError Bool × σ :=
  match (store.policyChecker.verifyRemoveAccess user ns.wiki [ns.bag]).head? with
  | none => (.error (.fatal "TypeError"), s)
  | some writePermission0 =>
    if writePermission0.allowed then
      let tiddlerExisted := (P.currentValue s ns title).isSome
      match P.updateDoc s ns title (fun _ => .ok none) (some expectedRevision) with
      | (.ok _, s1) => (.ok tiddlerExisted, s1)
      | (.error e, s1) => (.error e, s1)
    else
      (.error (.http ("Tiddler remove denied " ++ writePermission0.reason.getD "")
        HTTP_FORBIDDEN), s)

/-- The state of the modelled persistence engine: the stored records plus a
counter from which fresh opaque revision tokens are minted. -/
structure PersistenceState where
  docs : List QualifiedRecord
  nextRev : Nat
deriving DecidableEq, Repr

/-- The record currently stored at `(ns, title)`, if any. -/
def lookupDoc (s : PersistenceState) (ns : TiddlerNamespace) (title : String) :
    Option QualifiedRecord :=
  s.docs.find? (fun r => r.ns == ns && r.title == title)

/-- Modelled from the spec: the compare-and-swap of the external persistence
engine (§6): reject with Conflict when an expected revision is supplied and
the stored revision does not match it (when nothing is stored there is no
stored revision to compare against, and §8 expects a no-op removal of an
absent document to succeed and report `false`); otherwise apply the updater
to the current value, storing and returning the produced record on a value
and deleting the slot on absence. -/
def specUpdateDoc (s : PersistenceState) (ns : TiddlerNamespace) (title : String)
    (updater : Updater) (expectedRevision : Option String) :
    Except StoreError (Option QualifiedRecord) × PersistenceState :=
  let current := lookupDoc s ns title
  let gateFails :=
    match expectedRevision, current with
    | some rev, some r => r.revision != rev
    | _, _ => false
  if gateFails then
    (.error (.http ("Revision mismatch for tiddler " ++ title) HTTP_CONFLICT), s)
  else
    match updater (current.map (fun r => r.value)) with
    | .error e => (.error e, s)
    | .ok none =>
      (.ok none,
        { s with docs := s.docs.filter (fun r => !(r.ns == ns && r.title == title)) })
    | .ok (some v) =>
      let newRec : QualifiedRecord :=
        { ns := ns, title := title, value := v, revision := toString s.nextRev }
      (.ok (some newRec),
        { docs := s.docs.filter (fun r => !(r.ns == ns && r.title == title)) ++ [newRec],
          nextRev := s.nextRev + 1 })

/-- Modelled from the spec: the persistence collaborator over
`PersistenceState`.  `readCollections` returns each requested namespace's
records in the order the namespaces were supplied (§6 ordering contract). -/
def specPersistence : TiddlerPersistence PersistenceState where
  readCollections := fun s nss =>
    (nss.map (fun ns => s.docs.filter (fun r => r.ns == ns))).flatten
  updateDoc := specUpdateDoc
  currentValue := fun s ns title => (lookupDoc s ns title).map (fun r => r.value)

/-- A persistence wrapper that counts `updateDoc` invocations, used to state
that failed calls never issue a compare-and-swap. -/
def countingPersistence {σ : Type} (P : TiddlerPersistence σ) :
    TiddlerPersistence (σ × Nat) where
  readCollections := fun s nss => P.readCollections s.1 nss
  updateDoc := fun s ns title updater rev =>
    let out := P.updateDoc s.1 ns title updater rev
    (out.1, (out.2, s.2 + 1))
  currentValue := fun s ns title => P.currentValue s.1 ns title

theorem find?_filter_of_imp {α : Type} (l : List α) (p q : α → Bool)
    (h : ∀ x, q x = true → p x = true) :
    (l.filter p).find? q = l.find? q := by
  induction l with
  | nil => rfl
  | cons a l ih =>
    cases hp : p a with
    | true =>
      rw [List.filter_cons_of_pos hp]
      cases hq : q a with
      | true =>
        rw [List.find?_cons_of_pos _ hq, List.find?_cons_of_pos _ hq]
      | false =>
        rw [List.find?_cons_of_neg _ (by simp [hq]),
          List.find?_cons_of_neg _ (by simp [hq]), ih]
    | false =>
      rw [List.filter_cons_of_neg (by simp [hp]), ih,
        List.find?_cons_of_neg _ (fun hq => by simp [h a hq] at hp)]

theorem getField_objectAssign (base upd : Tiddler) (k : String) :
    getField (objectAssign base upd) k =
      match getField upd k with
      | some v => some v
      | none => getField base k := by
  unfold getField objectAssign
  rw [List.find?_append]
  cases hu : upd.find? (fun q => q.1 == k) with
  | some q =>
    have hleft :
        (base.filter (fun p => (upd.find? (fun q => q.1 == p.1)).isNone)).find?
          (fun p => p.1 == k) = none := by
      rw [List.find?_eq_none]
      intro x hx hk
      have hxk : x.1 = k := by simpa using hk
      have := (List.mem_filter.mp hx).2
      rw [hxk, hu] at this
      simp at this
    rw [hleft]
    simp [hu]
  | none =>
    have hleft :
        (base.filter (fun p => (upd.find? (fun q => q.1 == p.1)).isNone)).find?
          (fun p => p.1 == k) = base.find? (fun p => p.1 == k) := by
      apply find?_filter_of_imp
      intro x hk
      have hxk : x.1 = k := by simpa using hk
      rw [hxk, hu]
      rfl
    rw [hleft]
    simp

/-- Claim C5: an updater built from an `update` intent fails BadRequest when
the current document is absent, and on a present current document produces a
shallow merge: each top-level field present in the update replaces the
same-named field of the current value, every other top-level field of the
current value is retained unchanged. -/
theorem getUpdater_update_shallow_merge (tiddlerFactory : TiddlerFactory)
    (user : User) (title : String) (upd : TiddlerData) (rev : Option String) :
    getUpdater tiddlerFactory user title (.update upd rev) none =
      .error (.http
        ("Tiddler " ++ title ++ " received update, but no such tiddler exists in bag")
        HTTP_BAD_REQUEST) ∧
    ∀ cur : Tiddler, ∃ merged : Tiddler,
      getUpdater tiddlerFactory user title (.update upd rev) (some cur) = .ok merged ∧
      ∀ k : String, getField merged k =
        match getField upd k with
        | some v => some v
        | none => getField cur k := by
  refine ⟨rfl, fun cur => ⟨objectAssign cur upd, rfl, fun k => ?_⟩⟩
  exact getField_objectAssign cur upd k

/-- Claim C6: an updater built from a `create` intent ignores any current
value and always produces exactly the Document Factory's output for
`(user, title, declared type, creation payload)`; hence a `writeToBag` with
`create` intent against an existing title fully replaces the stored value
with the factory-built value. -/
theorem getUpdater_create_factory_value (store : GlobalTiddlerStore)
    (user : User) (ns : TiddlerNamespace) (title : String) (c : TiddlerCreation)
    (s : PersistenceState) (p : AccessResult)
    (hperm : (store.policyChecker.getWriteableBag user ns.wiki [ns.bag] title
      (getTiddlerData (.create c))).head? = some p)
    (hallowed : p.allowed = true) :
    (∀ cur : Option Tiddler,
      getUpdater store.tiddlerFactory user title (.create c) cur =
        .ok (store.tiddlerFactory.createTiddler user title c.type c)) ∧
    writeToBag store specPersistence user ns title (.create c) s =
      (.ok
        { ns := ns, title := title,
          value := store.tiddlerFactory.createTiddler user title c.type c,
          revision := toString s.nextRev },
       { docs := s.docs.filter (fun r => !(r.ns == ns && r.title == title)) ++
           [{ ns := ns, title := title,
              value := store.tiddlerFactory.createTiddler user title c.type c,
              revision := toString s.nextRev }],
         nextRev := s.nextRev + 1 }) ∧
    lookupDoc
      (writeToBag store specPersistence user ns title (.create c) s).2 ns title =
      some
        { ns := ns, title := title,
          value := store.tiddlerFactory.createTiddler user title c.type c,
          revision := toString s.nextRev } := by
  refine ⟨fun cur => rfl, ?_⟩
  have hwrite :
      writeToBag store specPersistence user ns title (.create c) s =
        (.ok
          { ns := ns, title := title,
            value := store.tiddlerFactory.createTiddler user title c.type c,
            revision := toString s.nextRev },
         { docs := s.docs.filter (fun r => !(r.ns == ns && r.title == title)) ++
             [{ ns := ns, title := title,
                value := store.tiddlerFactory.createTiddler user title c.type c,
                revision := toString s.nextRev }],
           nextRev := s.nextRev + 1 }) := by
    unfold writeToBag
    rw [hperm]
    simp only [hallowed, if_true]
    show (match specUpdateDoc s ns title
        (asUpdater (getUpdater store.tiddlerFactory user title (.create c)))
        (getExpectedRevision (.create c)) with
      | (.error e, s1) => ((.error e : Except StoreError QualifiedRecord), s1)
      | (.ok none, s1) =>
        (.error (.fatal "Result of write transaction should not be null"), s1)
      | (.ok (some r), s1) => (.ok r, s1)) = _
    unfold specUpdateDoc
    simp only [getExpectedRevision, asUpdater, getUpdater, Except.map]
    simp
  refine ⟨hwrite, ?_⟩
  rw [hwrite]
  unfold lookupDoc
  simp only [List.find?_append]
  have hleft :
      (s.docs.filter (fun r => !(r.ns == ns && r.title == title))).find?
        (fun r => r.ns == ns && r.title == title) = none := by
    rw [List.find?_eq_none]
    intro x hx hk
    have := (List.mem_filter.mp hx).2
    rw [hk] at this
    simp at this
  rw [hleft]
  simp

/-- A concrete document factory: builds a value from the title and declared
type. -/
def demoFactory : TiddlerFactory where
  createTiddler := fun _ title ty _ => [("title", title), ("type", ty)]

/-- A policy checker that allows everything. -/
def allowAllChecker : PolicyChecker where
  verifyReadAccess := fun _ _ bags => bags.map (fun b => ⟨b, true, none⟩)
  getWriteableBag := fun _ _ bags _ _ => bags.map (fun b => ⟨b, true, none⟩)
  verifyRemoveAccess := fun _ _ bags => bags.map (fun b => ⟨b, true, none⟩)

/-- A resolver expanding every recipe to the ordered bag list `[A, B]`. -/
def abResolver : RecipeResolver where
  getRecipeBags := fun _ _ _ => some ["A", "B"]

/-- A store over the all-allowing checker and the `[A, B]` resolver. -/
def demoStore : GlobalTiddlerStore where
  policyChecker := allowAllChecker
  recipeResolver := abResolver
  tiddlerFactory := demoFactory

/-- Title X as stored in bag A. -/
def tidXA : QualifiedRecord := ⟨⟨"w", "A"⟩, "X", [("text", "a")], "1"⟩

/-- Title X as stored in bag B (shadowed by bag A on recipe reads). -/
def tidXB : QualifiedRecord := ⟨⟨"w", "B"⟩, "X", [("text", "b")], "2"⟩

/-- Title Y, stored only in bag B. -/
def tidYB : QualifiedRecord := ⟨⟨"w", "B"⟩, "Y", [("text", "c")], "3"⟩

/-- Bags A and B, where both contain title X (different values) and B alone
contains title Y. -/
def demoState : PersistenceState := ⟨[tidXA, tidXB, tidYB], 4⟩

/-- Claim C1: the spec says a titleless `readFromRecipe` over readable
partitions deduplicates by title, keeping only the record from the earliest
partition in resolution order, so with partitions `[A, B]` where both
contain X and B alone contains Y the result should be exactly
`{X: A's value, Y: B's value}`.  The code disagrees: `deduplicate` checks
`encounteredTitles` but never adds to it, so the result keeps the shadowed
record of X from bag B as well — three records, title X twice. -/
theorem readFromRecipe_keeps_shadowed_duplicates :
    readFromRecipe demoStore specPersistence "u" ⟨"w", "R"⟩ none demoState =
      .ok (.array [tidXA, tidXB, tidYB]) := by
  rfl

/-- A policy checker denying every read with a per-bag reason, allowing
writes and removals. -/
def denyReadChecker : PolicyChecker where
  verifyReadAccess := fun _ _ bags =>
    bags.map (fun b => ⟨b, false, some ("no read access to " ++ b)⟩)
  getWriteableBag := fun _ _ bags _ _ => bags.map (fun b => ⟨b, true, none⟩)
  verifyRemoveAccess := fun _ _ bags => bags.map (fun b => ⟨b, true, none⟩)

/-- A resolver expanding every recipe to the single bag `[A]`. -/
def aResolver : RecipeResolver where
  getRecipeBags := fun _ _ _ => some ["A"]

/-- A store whose recipes resolve to bag A, with reads denied. -/
def denyReadStore : GlobalTiddlerStore where
  policyChecker := denyReadChecker
  recipeResolver := aResolver
  tiddlerFactory := demoFactory

/-- Claim C2: the spec says a recipe read with a denied partition fails with
a Forbidden error aggregating the denial reasons.  The code aggregates the
reasons but throws the error with status `HTTP_NOT_FOUND` (404), not
`HTTP_FORBIDDEN` (403): source line 204, in contrast to the Forbidden
statuses of `readFromBag`, `writeToBag`, `writeToRecipe` and
`removeFromBag`. -/
theorem readFromRecipe_denial_status_not_found :
    readFromRecipe denyReadStore specPersistence "u" ⟨"w", "R"⟩ none demoState =
      .error (.http
        "At least one bag referenced by recipe R in wiki w is not readable. Errors: no read access to A"
        HTTP_NOT_FOUND) := by
  rfl

/-- Witness for `getUpdater_create_factory_value` at a concrete input: bag A
already holds title X; a `create` write replaces the stored value with the
factory-built one. -/
theorem getUpdater_create_factory_value_witness :
    lookupDoc
      (writeToBag demoStore specPersistence "u" ⟨"w", "A"⟩ "X"
        (.create ⟨"text/plain", [("text", "new")]⟩) demoState).2 ⟨"w", "A"⟩ "X" =
      some ⟨⟨"w", "A"⟩, "X", [("title", "X"), ("type", "text/plain")], "4"⟩ :=
  (getUpdater_create_factory_value demoStore "u" ⟨"w", "A"⟩ "X"
    ⟨"text/plain", [("text", "new")]⟩ demoState ⟨"A", true, none⟩ rfl rfl).2.2

/-- A degenerate persistence handle whose compare-and-swap commits but yields
no resulting record, exercising the write paths' handling of a resultless
transaction. -/
def nullPersistence : TiddlerPersistence Unit where
  readCollections := fun _ _ => []
  updateDoc := fun _ _ _ _ _ => (.ok none, ())
  currentValue := fun _ _ _ => none

/-- Claim C3 (amended): on the `writeToBag` path, a transaction that
completes without yielding a resulting record fails with the distinct
internal-invariant error — a plain `Error`, not a user-facing HTTP error —
and never returns a null/empty success.  (The `writeToRecipe` path has no
such runtime check: `return txResult!` is a compile-time assertion only.) -/
theorem writeToBag_null_result_fatal {σ : Type} (store : GlobalTiddlerStore)
    (P : TiddlerPersistence σ) (user : User) (ns : TiddlerNamespace)
    (title : String) (updateOrCreate : TiddlerUpdateOrCreate) (s s1 : σ)
    (p : AccessResult)
    (hperm : (store.policyChecker.getWriteableBag user ns.wiki [ns.bag] title
      (getTiddlerData updateOrCreate)).head? = some p)
    (hallowed : p.allowed = true)
    (hupd : P.updateDoc s ns title
      (asUpdater (getUpdater store.tiddlerFactory user title updateOrCreate))
      (getExpectedRevision updateOrCreate) = (.ok none, s1)) :
    writeToBag store P user ns title updateOrCreate s =
      (.error (.fatal "Result of write transaction should not be null"), s1) := by
  unfold writeToBag
  rw [hperm]
  simp only [hallowed, if_true]
  rw [hupd]

/-- Counterexample to claim C3 as stated: a `writeToRecipe` call whose
transaction completes without yielding a resulting record does not fail with
an internal-invariant error — it returns the absent result as a success
(`return txResult!` performs no runtime check). -/
theorem writeToRecipe_null_result_returned :
    writeToRecipe demoStore nullPersistence "u" ⟨"w", "R"⟩ "X"
      (.create ⟨"text/plain", []⟩) () = (.ok none, ()) := by
  rfl

/-- Witness for `writeToBag_null_result_fatal` at a concrete input. -/
theorem writeToBag_null_result_fatal_witness :
    writeToBag demoStore nullPersistence "u" ⟨"w", "A"⟩ "X"
      (.create ⟨"text/plain", []⟩) () =
      (.error (.fatal "Result of write transaction should not be null"), ()) :=
  writeToBag_null_result_fatal demoStore nullPersistence "u" ⟨"w", "A"⟩ "X"
    (.create ⟨"text/plain", []⟩) () () ⟨"A", true, none⟩ rfl rfl rfl

/-- A resolver that knows no recipe: always the absent sentinel. -/
def absentResolver : RecipeResolver where
  getRecipeBags := fun _ _ _ => none

/-- A resolver expanding every recipe to the empty bag list. -/
def emptyResolver : RecipeResolver where
  getRecipeBags := fun _ _ _ => some []

/-- A store whose recipes resolve to the empty bag list. -/
def emptyResolutionStore : GlobalTiddlerStore where
  policyChecker := allowAllChecker
  recipeResolver := emptyResolver
  tiddlerFactory := demoFactory

/-- A store whose recipes never resolve. -/
def absentResolutionStore : GlobalTiddlerStore where
  policyChecker := allowAllChecker
  recipeResolver := absentResolver
  tiddlerFactory := demoFactory

/-- Counterexample to claim C4 as stated: when the resolver yields the empty
bag list (not the absent sentinel), `readFromRecipe` does not fail NotFound —
`!bags` is false for an empty JS array, so the call proceeds and returns an
empty result set. -/
theorem readFromRecipe_empty_resolution_succeeds :
    readFromRecipe emptyResolutionStore specPersistence "u" ⟨"w", "R"⟩ none
      demoState = .ok (.array []) := by
  rfl

/-- Claim C4 (amended): for `readFromRecipe` and `writeToRecipe`, only the
absent-sentinel shape of the resolver result fails NotFound ("recipe not
found"); an empty bag list passes the `!bags` check and proceeds. -/
theorem recipe_absent_resolution_not_found {σ : Type}
    (store : GlobalTiddlerStore) (P : TiddlerPersistence σ) (user : User)
    (namespacedRecipe : NamespacedRecipe) (title : Option String) (t2 : String)
    (updateOrCreate : TiddlerUpdateOrCreate) (s : σ)
    (hread : store.recipeResolver.getRecipeBags user "read" namespacedRecipe = none)
    (hwrite : store.recipeResolver.getRecipeBags user "write" namespacedRecipe = none) :
    readFromRecipe store P user namespacedRecipe title s =
      .error (.http
        ("Recipe " ++ namespacedRecipe.recipe ++ " not found in wiki " ++
          namespacedRecipe.wiki)
        HTTP_NOT_FOUND) ∧
    writeToRecipe store P user namespacedRecipe t2 updateOrCreate s =
      (.error (.http
        ("Recipe " ++ namespacedRecipe.recipe ++ " not found in wiki " ++
          namespacedRecipe.wiki)
        HTTP_NOT_FOUND), s) := by
  constructor
  · unfold readFromRecipe
    rw [hread]
  · unfold writeToRecipe
    rw [hwrite]

/-- Witness for `recipe_absent_resolution_not_found` at a concrete input. -/
theorem recipe_absent_resolution_not_found_witness :
    readFromRecipe absentResolutionStore specPersistence "u" ⟨"w", "R"⟩ none
      demoState = .error (.http "Recipe R not found in wiki w" HTTP_NOT_FOUND) :=
  (recipe_absent_resolution_not_found absentResolutionStore specPersistence "u"
    ⟨"w", "R"⟩ none "X" (.create ⟨"text/plain", []⟩) demoState rfl rfl).1

theorem find?_slot_filter_none (docs : List QualifiedRecord)
    (ns : TiddlerNamespace) (title : String) :
    (docs.filter (fun r => !(r.ns == ns && r.title == title))).find?
      (fun r => r.ns == ns && r.title == title) = none := by
  rw [List.find?_eq_none]
  intro x hx hk
  have := (List.mem_filter.mp hx).2
  rw [hk] at this
  simp at this

theorem and_beq_of_ne (x : QualifiedRecord) (ns ns' : TiddlerNamespace)
    (title t' : String) (hne : ¬(ns' = ns ∧ t' = title))
    (hx : (x.ns == ns' && x.title == t') = true) :
    (!(x.ns == ns && x.title == title)) = true := by
  simp only [Bool.and_eq_true, beq_iff_eq] at hx
  cases hcase : (x.ns == ns && x.title == title) with
  | false => rfl
  | true =>
    simp only [Bool.and_eq_true, beq_iff_eq] at hcase
    exact absurd ⟨by rw [← hx.1, hcase.1], by rw [← hx.2, hcase.2]⟩ hne

theorem specUpdateDoc_ok_some (s : PersistenceState) (ns : TiddlerNamespace)
    (title : String) (updater : Updater) (rev : Option String)
    (r : QualifiedRecord) (s1 : PersistenceState)
    (h : specUpdateDoc s ns title updater rev = (.ok (some r), s1)) :
    r.ns = ns ∧ r.title = title ∧ lookupDoc s1 ns title = some r := by
  unfold specUpdateDoc at h
  simp only [] at h
  split at h
  · simp at h
  · split at h
    · simp at h
    · simp at h
    · simp only [Prod.mk.injEq, Except.ok.injEq, Option.some.injEq] at h
      obtain ⟨h1, h2⟩ := h
      subst h1
      subst h2
      refine ⟨rfl, rfl, ?_⟩
      unfold lookupDoc
      dsimp only
      rw [List.find?_append, find?_slot_filter_none]
      simp

theorem lookupDoc_specUpdateDoc_other (s : PersistenceState)
    (ns : TiddlerNamespace) (title : String) (updater : Updater)
    (rev : Option String) (ns' : TiddlerNamespace) (t' : String)
    (hne : ¬(ns' = ns ∧ t' = title)) :
    lookupDoc (specUpdateDoc s ns title updater rev).2 ns' t' =
      lookupDoc s ns' t' := by
  unfold specUpdateDoc
  simp only []
  split
  · rfl
  · split
    · rfl
    · unfold lookupDoc
      dsimp only
      exact find?_filter_of_imp _ _ _
        (fun x hx => and_beq_of_ne x ns ns' title t' hne hx)
    · unfold lookupDoc
      dsimp only
      rw [List.find?_append,
        find?_filter_of_imp _ _ _ (fun x hx => and_beq_of_ne x ns ns' title t' hne hx)]
      have hnone : ∀ (v : Tiddler) (nr : String),
          List.find? (fun r => r.ns == ns' && r.title == t')
            ([{ ns := ns, title := title, value := v, revision := nr }] :
              List QualifiedRecord) = none := by
        intro v nr
        rw [List.find?_eq_none]
        intro x hx hk
        rw [List.mem_singleton] at hx
        subst hx
        simp only [Bool.and_eq_true, beq_iff_eq] at hk
        exact hne ⟨hk.1.symm, hk.2.symm⟩
      rw [hnone, Option.or_none]

/-- Claim C7: `writeToRecipe` with a non-empty resolution performs the write
against exactly the first partition in resolution order whose write
permission is allowed — later partitions are untouched and need not be
allowed — and the returned record reports that partition; when no resolved
partition is allowed the call fails Forbidden, aggregating every partition's
denial reason. -/
theorem writeToRecipe_first_writable_bag (store : GlobalTiddlerStore)
    (user : User) (namespacedRecipe : NamespacedRecipe) (title : String)
    (updateOrCreate : TiddlerUpdateOrCreate) (s : PersistenceState)
    (bags : List String)
    (hbags : store.recipeResolver.getRecipeBags user "write" namespacedRecipe =
      some bags) :
    (∀ bagToWrite : AccessResult,
      (store.policyChecker.getWriteableBag user namespacedRecipe.wiki bags title
        (getTiddlerData updateOrCreate)).find? (fun p => p.allowed) =
        some bagToWrite →
      writeToRecipe store specPersistence user namespacedRecipe title
          updateOrCreate s =
        specUpdateDoc s { wiki := namespacedRecipe.wiki, bag := bagToWrite.bag }
          title (asUpdater (getUpdater store.tiddlerFactory user title updateOrCreate))
          (getExpectedRevision updateOrCreate) ∧
      (∀ (r : QualifiedRecord) (s1 : PersistenceState),
        writeToRecipe store specPersistence user namespacedRecipe title
            updateOrCreate s = (.ok (some r), s1) →
        r.ns = { wiki := namespacedRecipe.wiki, bag := bagToWrite.bag } ∧
        lookupDoc s1 r.ns r.title = some r) ∧
      (∀ (ns' : TiddlerNamespace) (t' : String),
        ¬(ns' = { wiki := namespacedRecipe.wiki, bag := bagToWrite.bag } ∧
            t' = title) →
        lookupDoc (writeToRecipe store specPersistence user namespacedRecipe title
          updateOrCreate s).2 ns' t' = lookupDoc s ns' t')) ∧
    ((store.policyChecker.getWriteableBag user namespacedRecipe.wiki bags title
        (getTiddlerData updateOrCreate)).find? (fun p => p.allowed) = none →
      writeToRecipe store specPersistence user namespacedRecipe title
          updateOrCreate s =
        (.error (.http
          ("No bags in wiki " ++ namespacedRecipe.wiki ++ " recipe " ++
            namespacedRecipe.recipe ++
            " found which can be written to. Errors: " ++
            String.intercalate ", "
              (((store.policyChecker.getWriteableBag user namespacedRecipe.wiki
                bags title (getTiddlerData updateOrCreate)).filter
                  (fun p => truthyStr p.reason)).filterMap (fun p => p.reason)))
          HTTP_FORBIDDEN), s)) := by
  constructor
  · intro bagToWrite hfind
    have hw : writeToRecipe store specPersistence user namespacedRecipe title
        updateOrCreate s =
        specUpdateDoc s { wiki := namespacedRecipe.wiki, bag := bagToWrite.bag }
          title (asUpdater (getUpdater store.tiddlerFactory user title updateOrCreate))
          (getExpectedRevision updateOrCreate) := by
      unfold writeToRecipe
      rw [hbags]
      simp only []
      rw [hfind]
      rfl
    refine ⟨hw, ?_, ?_⟩
    · intro r s1 heq
      rw [hw] at heq
      obtain ⟨h1, h2, h3⟩ := specUpdateDoc_ok_some _ _ _ _ _ _ _ heq
      refine ⟨h1, ?_⟩
      rw [h1, h2]
      exact h3
    · intro ns' t' hne
      rw [hw]
      exact lookupDoc_specUpdateDoc_other _ _ _ _ _ _ _ hne
  · intro hfind
    unfold writeToRecipe
    rw [hbags]
    simp only []
    rw [hfind]

/-- A policy checker allowing writes only to bag B (bag A is readonly),
allowing reads and removals everywhere. -/
def writeBOnlyChecker : PolicyChecker where
  verifyReadAccess := fun _ _ bags => bags.map (fun b => ⟨b, true, none⟩)
  getWriteableBag := fun _ _ bags _ _ =>
    bags.map (fun b =>
      if b == "B" then ⟨b, true, none⟩ else ⟨b, false, some (b ++ " is readonly")⟩)
  verifyRemoveAccess := fun _ _ bags => bags.map (fun b => ⟨b, true, none⟩)

/-- A store where recipes resolve to `[A, B]` and only bag B is writable. -/
def writeBOnlyStore : GlobalTiddlerStore where
  policyChecker := writeBOnlyChecker
  recipeResolver := abResolver
  tiddlerFactory := demoFactory

/-- Witness for `writeToRecipe_first_writable_bag` at a concrete input: bag A
is denied and bag B allowed; the write is performed against bag B. -/
theorem writeToRecipe_first_writable_bag_witness :
    writeToRecipe writeBOnlyStore specPersistence "u" ⟨"w", "R"⟩ "X"
      (.create ⟨"text/plain", []⟩) demoState =
      specUpdateDoc demoState ⟨"w", "B"⟩ "X"
        (asUpdater (getUpdater writeBOnlyStore.tiddlerFactory "u" "X"
          (.create ⟨"text/plain", []⟩)))
        (getExpectedRevision (.create ⟨"text/plain", []⟩)) :=
  (((writeToRecipe_first_writable_bag writeBOnlyStore "u" ⟨"w", "R"⟩ "X"
    (.create ⟨"text/plain", []⟩) demoState ["A", "B"] rfl).1)
    ⟨"B", true, none⟩ rfl).1

/-- The records of one bag as persisted: the contribution one namespace makes
to a multi-collection read. -/
def bagCollection (s : PersistenceState) (wiki bag : String) :
    List QualifiedRecord :=
  s.docs.filter (fun r => r.ns == { wiki := wiki, bag := bag })

theorem specPersistence_readCollections_bags (s : PersistenceState)
    (wiki : String) (bags : List String) :
    specPersistence.readCollections s
      (bags.map (fun bag => { wiki := wiki, bag := bag })) =
      (bags.map (fun bag => bagCollection s wiki bag)).flatten := by
  show ((bags.map (fun bag => ({ wiki := wiki, bag := bag } : TiddlerNamespace))).map
    (fun ns => s.docs.filter (fun r => r.ns == ns))).flatten = _
  rw [List.map_map]
  rfl

/-- Claim C8: a `readFromRecipe` with a title over readable partitions
returns the matching record of the earliest partition in resolution order
containing the title, and fails NotFound when no resolved partition contains
it. -/
theorem readFromRecipe_title_first_in_order (store : GlobalTiddlerStore)
    (user : User) (namespacedRecipe : NamespacedRecipe) (t : String)
    (s : PersistenceState) (bags : List String)
    (hbags : store.recipeResolver.getRecipeBags user "read" namespacedRecipe =
      some bags)
    (hperm : (store.policyChecker.verifyReadAccess user namespacedRecipe.wiki
      bags).all (fun p => p.allowed) = true) :
    (∀ (pre : List String) (b : String) (post : List String) (r : QualifiedRecord),
      bags = pre ++ b :: post →
      (∀ a ∈ pre, (bagCollection s namespacedRecipe.wiki a).find?
        (fun x => x.title == t) = none) →
      (bagCollection s namespacedRecipe.wiki b).find? (fun x => x.title == t) =
        some r →
      readFromRecipe store specPersistence user namespacedRecipe (some t) s =
        .ok (.single r)) ∧
    ((∀ b ∈ bags, (bagCollection s namespacedRecipe.wiki b).find?
        (fun x => x.title == t) = none) →
      readFromRecipe store specPersistence user namespacedRecipe (some t) s =
        .error (.http
          ("Tiddler " ++ t ++ " not found in wiki " ++ namespacedRecipe.wiki ++
            " recipe " ++ namespacedRecipe.recipe)
          HTTP_NOT_FOUND)) := by
  have hred : readFromRecipe store specPersistence user namespacedRecipe (some t) s =
      (match getFirst ((bags.map (fun bag => bagCollection s namespacedRecipe.wiki
        bag)).flatten) t with
       | some tiddler => .ok (.single tiddler)
       | none =>
         .error (.http
           ("Tiddler " ++ t ++ " not found in wiki " ++ namespacedRecipe.wiki ++
             " recipe " ++ namespacedRecipe.recipe)
           HTTP_NOT_FOUND)) := by
    unfold readFromRecipe
    rw [hbags]
    simp only [hperm, if_true]
    rw [specPersistence_readCollections_bags]
  constructor
  · intro pre b post r hsplit hpre hfound
    rw [hred]
    have hget : getFirst ((bags.map (fun bag => bagCollection s
        namespacedRecipe.wiki bag)).flatten) t = some r := by
      unfold getFirst
      rw [hsplit, List.map_append, List.flatten_append, List.find?_append]
      have hleft : ((pre.map (fun bag => bagCollection s namespacedRecipe.wiki
          bag)).flatten).find? (fun x => x.title == t) = none := by
        rw [List.find?_eq_none]
        intro x hx
        rw [List.mem_flatten] at hx
        obtain ⟨l, hl, hxl⟩ := hx
        rw [List.mem_map] at hl
        obtain ⟨a, ha, hla⟩ := hl
        exact List.find?_eq_none.mp (hpre a ha) x (hla ▸ hxl)
      rw [hleft, List.map_cons, List.flatten_cons, List.find?_append, hfound]
      rfl
    rw [hget]
  · intro hnone
    rw [hred]
    have hget : getFirst ((bags.map (fun bag => bagCollection s
        namespacedRecipe.wiki bag)).flatten) t = none := by
      unfold getFirst
      rw [List.find?_eq_none]
      intro x hx
      rw [List.mem_flatten] at hx
      obtain ⟨l, hl, hxl⟩ := hx
      rw [List.mem_map] at hl
      obtain ⟨a, ha, hla⟩ := hl
      exact List.find?_eq_none.mp (hnone a ha) x (hla ▸ hxl)
    rw [hget]

/-- Witness for `readFromRecipe_title_first_in_order` at a concrete input:
bags A and B both contain title X; the record from A is returned. -/
theorem readFromRecipe_title_first_in_order_witness :
    readFromRecipe demoStore specPersistence "u" ⟨"w", "R"⟩ (some "X")
      demoState = .ok (.single tidXA) :=
  (readFromRecipe_title_first_in_order demoStore "u" ⟨"w", "R"⟩ "X" demoState
    ["A", "B"] rfl rfl).1 [] "A" ["B"] tidXA rfl
    (by intro a ha; exact absurd ha (List.not_mem_nil a)) rfl

/-- Claim C9: when remove permission is allowed (and the expected-revision
gate passes), the updater supplied to the compare-and-swap unconditionally
yields absence — afterwards nothing is stored at the slot — and the call
returns exactly whether a document existed immediately before the removal,
also when the deletion was a no-op. -/
theorem removeFromBag_reports_prior_existence (store : GlobalTiddlerStore)
    (user : User) (ns : TiddlerNamespace) (title : String)
    (expectedRevision : String) (s : PersistenceState) (p : AccessResult)
    (hperm : (store.policyChecker.verifyRemoveAccess user ns.wiki [ns.bag]).head? =
      some p)
    (hallowed : p.allowed = true)
    (hgate : (lookupDoc s ns title).all
      (fun r => r.revision == expectedRevision) = true) :
    removeFromBag store specPersistence user ns title expectedRevision s =
      (.ok (lookupDoc s ns title).isSome,
       { s with docs := s.docs.filter (fun r => !(r.ns == ns && r.title == title)) }) ∧
    lookupDoc
      ({ s with docs := s.docs.filter (fun r => !(r.ns == ns && r.title == title)) } :
        PersistenceState) ns title = none := by
  have hupd : specUpdateDoc s ns title (fun _ => .ok none) (some expectedRevision) =
      (.ok none,
       { s with docs := s.docs.filter (fun r => !(r.ns == ns && r.title == title)) }) := by
    unfold specUpdateDoc
    simp only []
    cases hcur : lookupDoc s ns title with
    | none => simp
    | some r =>
      rw [hcur] at hgate
      simp only [Option.all] at hgate
      simp [beq_iff_eq.mp hgate]
  constructor
  · unfold removeFromBag
    rw [hperm]
    simp only [hallowed, if_true]
    rw [show specPersistence.updateDoc = specUpdateDoc from rfl, hupd]
    have hcv : (specPersistence.currentValue s ns title).isSome =
        (lookupDoc s ns title).isSome := by
      show ((lookupDoc s ns title).map (fun r => r.value)).isSome = _
      cases lookupDoc s ns title <;> rfl
    rw [hcv]
  · unfold lookupDoc
    exact find?_slot_filter_none s.docs ns title

/-- Witness for `removeFromBag_reports_prior_existence` at a concrete input:
bag A holds title X at revision 1; removing X with expected revision 1
deletes it and reports that it existed. -/
theorem removeFromBag_reports_prior_existence_witness :
    removeFromBag demoStore specPersistence "u" ⟨"w", "A"⟩ "X" "1" demoState =
      (.ok true, ⟨[tidXB, tidYB], 4⟩) ∧
    lookupDoc (⟨[tidXB, tidYB], 4⟩ : PersistenceState) ⟨"w", "A"⟩ "X" = none := by
  have h := removeFromBag_reports_prior_existence demoStore "u" ⟨"w", "A"⟩ "X"
    "1" demoState ⟨"A", true, none⟩ rfl rfl rfl
  exact h

theorem asUpdater_getUpdater_error (f : TiddlerFactory) (user : User)
    (title : String) (updateOrCreate : TiddlerUpdateOrCreate)
    (cur : Option Tiddler) (e : StoreError)
    (h : asUpdater (getUpdater f user title updateOrCreate) cur = .error e) :
    e = .http
      ("Tiddler " ++ title ++ " received update, but no such tiddler exists in bag")
      HTTP_BAD_REQUEST := by
  cases updateOrCreate with
  | update upd rev =>
    cases cur with
    | none =>
      have h2 : (Except.error (ε := StoreError) (α := Option Tiddler)
          (.http
            ("Tiddler " ++ title ++ " received update, but no such tiddler exists in bag")
            HTTP_BAD_REQUEST)) = .error e := h
      injection h2 with h3
      exact h3.symm
    | some c =>
      have h2 : (Except.ok (ε := StoreError) (α := Option Tiddler)
          (some (objectAssign c upd))) = .error e := h
      cases h2
  | create c =>
    have h2 : (Except.ok (ε := StoreError) (α := Option Tiddler)
        (some (f.createTiddler user title c.type c))) = .error e := h
    cases h2

theorem specUpdateDoc_error_cases (s : PersistenceState) (ns : TiddlerNamespace)
    (title : String) (updater : Updater) (rev : Option String) (e : StoreError)
    (s1 : PersistenceState)
    (h : specUpdateDoc s ns title updater rev = (.error e, s1)) :
    s1 = s ∧
      (e = .http ("Revision mismatch for tiddler " ++ title) HTTP_CONFLICT ∨
       ∃ cur : Option Tiddler, updater cur = .error e) := by
  unfold specUpdateDoc at h
  simp only [] at h
  split at h
  · simp only [Prod.mk.injEq, Except.error.injEq] at h
    exact ⟨h.2.symm, Or.inl h.1.symm⟩
  · split at h
    · rename_i e0 heq
      simp only [Prod.mk.injEq, Except.error.injEq] at h
      exact ⟨h.2.symm,
        Or.inr ⟨Option.map (fun r => r.value) (lookupDoc s ns title),
          by rw [heq, h.1]⟩⟩
    · simp at h
    · simp at h

/-- Claim C10: a `writeToBag`, `writeToRecipe` or `removeFromBag` call that
fails Forbidden (permission denied) or NotFound (recipe not resolved) never
issues a compare-and-swap: over a persistence handle that counts `updateDoc`
invocations, both the stored documents and the counter are exactly as before
the call. -/
theorem failed_calls_leave_state_unchanged (store : GlobalTiddlerStore)
    (user : User) (ns : TiddlerNamespace) (namespacedRecipe : NamespacedRecipe)
    (title : String) (updateOrCreate : TiddlerUpdateOrCreate)
    (expectedRevision : String) (s : PersistenceState) (n : Nat) :
    (∀ (msg : String) (st : Nat) (s1 : PersistenceState) (n1 : Nat),
      writeToBag store (countingPersistence specPersistence) user ns title
        updateOrCreate (s, n) = (.error (.http msg st), (s1, n1)) →
      st = HTTP_FORBIDDEN ∨ st = HTTP_NOT_FOUND → s1 = s ∧ n1 = n) ∧
    (∀ (msg : String) (st : Nat) (s1 : PersistenceState) (n1 : Nat),
      writeToRecipe store (countingPersistence specPersistence) user
        namespacedRecipe title updateOrCreate (s, n) =
        (.error (.http msg st), (s1, n1)) →
      st = HTTP_FORBIDDEN ∨ st = HTTP_NOT_FOUND → s1 = s ∧ n1 = n) ∧
    (∀ (msg : String) (st : Nat) (s1 : PersistenceState) (n1 : Nat),
      removeFromBag store (countingPersistence specPersistence) user ns title
        expectedRevision (s, n) = (.error (.http msg st), (s1, n1)) →
      st = HTTP_FORBIDDEN ∨ st = HTTP_NOT_FOUND → s1 = s ∧ n1 = n) := by
  have hcup : (countingPersistence specPersistence).updateDoc (s, n) =
      fun nsx t u rv =>
        ((specUpdateDoc s nsx t u rv).1, ((specUpdateDoc s nsx t u rv).2, n + 1)) :=
    rfl
  refine ⟨?_, ?_, ?_⟩
  · intro msg st s1 n1 h hst
    unfold writeToBag at h
    simp only [] at h
    cases hh : (store.policyChecker.getWriteableBag user ns.wiki [ns.bag] title
        (getTiddlerData updateOrCreate)).head? with
    | none =>
      rw [hh] at h
      simp at h
    | some p0 =>
      rw [hh] at h
      cases hal : p0.allowed with
      | false =>
        simp only [hal, Bool.false_eq_true, if_false] at h
        simp at h
        exact ⟨h.2.1.symm, h.2.2.symm⟩
      | true =>
        simp only [hal, if_true] at h
        rw [hcup] at h
        simp only [] at h
        cases hout : specUpdateDoc s ns title
            (asUpdater (getUpdater store.tiddlerFactory user title updateOrCreate))
            (getExpectedRevision updateOrCreate) with
        | mk res s2 =>
          rw [hout] at h
          cases res with
          | error e =>
            simp at h
            obtain ⟨hs2, hcase⟩ :=
              specUpdateDoc_error_cases _ _ _ _ _ _ _ hout
            cases hcase with
            | inl hc =>
              rw [hc] at h
              injection h.1 with hm hstatus
              cases hst with
              | inl h403 =>
                rw [h403] at hstatus
                exact absurd hstatus (by decide)
              | inr h404 =>
                rw [h404] at hstatus
                exact absurd hstatus (by decide)
            | inr hupd =>
              obtain ⟨cur, hcur⟩ := hupd
              have hbad := asUpdater_getUpdater_error _ _ _ _ _ _ hcur
              rw [hbad] at h
              injection h.1 with hm hstatus
              cases hst with
              | inl h403 =>
                rw [h403] at hstatus
                exact absurd hstatus (by decide)
              | inr h404 =>
                rw [h404] at hstatus
                exact absurd hstatus (by decide)
          | ok o =>
            cases o with
            | none => simp at h
            | some r => simp at h
  · intro msg st s1 n1 h hst
    unfold writeToRecipe at h
    simp only [] at h
    split at h
    · simp at h
      exact ⟨h.2.1.symm, h.2.2.symm⟩
    · split at h
      · simp at h
        exact ⟨h.2.1.symm, h.2.2.symm⟩
      · rename_i bags hbags bagToWrite hfind
        rw [hcup] at h
        simp only [] at h
        cases hout : specUpdateDoc s
            { wiki := namespacedRecipe.wiki, bag := bagToWrite.bag } title
            (asUpdater (getUpdater store.tiddlerFactory user title updateOrCreate))
            (getExpectedRevision updateOrCreate) with
        | mk res s2 =>
          rw [hout] at h
          cases res with
          | error e =>
            simp at h
            obtain ⟨hs2, hcase⟩ :=
              specUpdateDoc_error_cases _ _ _ _ _ _ _ hout
            cases hcase with
            | inl hc =>
              rw [hc] at h
              injection h.1 with hm hstatus
              cases hst with
              | inl h403 =>
                rw [h403] at hstatus
                exact absurd hstatus (by decide)
              | inr h404 =>
                rw [h404] at hstatus
                exact absurd hstatus (by decide)
            | inr hupd =>
              obtain ⟨cur, hcur⟩ := hupd
              have hbad := asUpdater_getUpdater_error _ _ _ _ _ _ hcur
              rw [hbad] at h
              injection h.1 with hm hstatus
              cases hst with
              | inl h403 =>
                rw [h403] at hstatus
                exact absurd hstatus (by decide)
              | inr h404 =>
                rw [h404] at hstatus
                exact absurd hstatus (by decide)
          | ok o => simp at h
  · intro msg st s1 n1 h hst
    unfold removeFromBag at h
    simp only [] at h
    cases hh : (store.policyChecker.verifyRemoveAccess user ns.wiki [ns.bag]).head? with
    | none =>
      rw [hh] at h
      simp at h
    | some p0 =>
      rw [hh] at h
      cases hal : p0.allowed with
      | false =>
        simp only [hal, Bool.false_eq_true, if_false] at h
        simp at h
        exact ⟨h.2.1.symm, h.2.2.symm⟩
      | true =>
        simp only [hal, if_true] at h
        rw [hcup] at h
        simp only [] at h
        cases hout : specUpdateDoc s ns title (fun _ => .ok none)
            (some expectedRevision) with
        | mk res s2 =>
          rw [hout] at h
          cases res with
          | error e =>
            simp at h
            obtain ⟨hs2, hcase⟩ :=
              specUpdateDoc_error_cases _ _ _ _ _ _ _ hout
            cases hcase with
            | inl hc =>
              rw [hc] at h
              injection h.1 with hm hstatus
              cases hst with
              | inl h403 =>
                rw [h403] at hstatus
                exact absurd hstatus (by decide)
              | inr h404 =>
                rw [h404] at hstatus
                exact absurd hstatus (by decide)
            | inr hupd =>
              obtain ⟨cur, hcur⟩ := hupd
              cases hcur
          | ok o => simp at h

/-- A policy checker denying everything, with a per-bag reason. -/
def denyAllChecker : PolicyChecker where
  verifyReadAccess := fun _ _ bags =>
    bags.map (fun b => ⟨b, false, some ("no read access to " ++ b)⟩)
  getWriteableBag := fun _ _ bags _ _ =>
    bags.map (fun b => ⟨b, false, some ("no write access to " ++ b)⟩)
  verifyRemoveAccess := fun _ _ bags =>
    bags.map (fun b => ⟨b, false, some ("no remove access to " ++ b)⟩)

/-- A store denying every operation. -/
def denyAllStore : GlobalTiddlerStore where
  policyChecker := denyAllChecker
  recipeResolver := abResolver
  tiddlerFactory := demoFactory

/-- Witness for `failed_calls_leave_state_unchanged` at a concrete input: a
denied `writeToBag` fails Forbidden with the stored documents and the
compare-and-swap counter exactly as before the call. -/
theorem failed_calls_leave_state_unchanged_witness :
    demoState = demoState ∧ (0 : Nat) = 0 :=
  (failed_calls_leave_state_unchanged denyAllStore "u" ⟨"w", "A"⟩ ⟨"w", "R"⟩
    "X" (.create ⟨"text/plain", []⟩) "1" demoState 0).1
    "Tiddler write denied no write access to A" HTTP_FORBIDDEN demoState 0 rfl
    (Or.inl rfl)
